import Mathlib

/-!
Verification of the fingering planner (`src/core/FingeringPlanner.ts`).

The TypeScript source is shallowly embedded below: JS numbers that hold
integral values become `Int`/`Nat`, cost arithmetic becomes `Rat`
(the difficulty multipliers 1.3/1.1/0.9 are the exact rationals the
constants denote), the JS `Infinity` sentinel used by the DP and the
reported total cost becomes the two-constructor type `JsNum`, JS `Map`s
keyed by stringified fingers become association lists in insertion
order, and the string parent keys become `(index, finger)` pairs.
-/

/-- Which hand plays a note (`Hand` in the source). -/
inductive Hand where
  | RH
  | LH
deriving DecidableEq, Repr

/-- Pattern classification tags supplied by the upstream layer
(`PatternType` in the source). -/
inductive PatternType where
  | SCALE
  | POLYPHONIC
  | ORNAMENTED
  | UNKNOWN
deriving DecidableEq, Repr

/-- A note as consumed by the planner (`Note` in the source). -/
structure Note where
  pitch : Int
  hand : Hand
  measureNumber : Int
deriving DecidableEq, Repr

/-- A pattern segment (`PatternSegment` in the source). -/
structure PatternSegment where
  startIndex : Int
  endIndex : Int
  patternType : PatternType
deriving DecidableEq, Repr

/-- Per-note derived hand-position record (the anonymous
`{ anchorPitch; inPosition; isScale }` record in the source). -/
structure HandPos where
  anchorPitch : Int
  inPosition : Bool
  isScale : Bool
deriving DecidableEq, Repr

/-- Result of a cost-model function (`CostResult` in the source). -/
structure CostResult where
  cost : Rat
  reasons : List String
deriving DecidableEq, Repr

/-- The process-wide difficulty level field of the planner class. -/
inductive Difficulty where
  | beginner
  | intermediate
  | advanced
deriving DecidableEq, Repr

/-- A JS number restricted to the values the planner actually produces
for cumulative/total costs: a finite rational or `Infinity`. -/
inductive JsNum where
  | fin (q : Rat)
  | inf
deriving DecidableEq, Repr

/-- JS addition on the values above (`Infinity + x = Infinity`). -/
def JsNum.add : JsNum → JsNum → JsNum
  | JsNum.fin a, JsNum.fin b => JsNum.fin (a + b)
  | _, _ => JsNum.inf

/-- JS `<` on the values above (`Infinity < Infinity` is false,
`x < Infinity` is true for finite `x`). -/
def JsNum.ltb : JsNum → JsNum → Bool
  | JsNum.fin a, JsNum.fin b => decide (a < b)
  | JsNum.fin _, JsNum.inf => true
  | JsNum.inf, _ => false

/-- Default note used to totalize JS index accesses that are always
in bounds in the source. -/
def dNote : Note := { pitch := 0, hand := Hand.RH, measureNumber := 0 }

/-- Default hand position used to totalize JS index accesses that are
always in bounds in the source. -/
def dPos : HandPos := { anchorPitch := 0, inPosition := false, isScale := false }

/-- The `naturalSpans` table, keyed by the unordered finger pair
(the source builds the string key from min and max). Unlisted pairs
yield 0 (`|| 0` in `getNaturalSpan`). -/
def getNaturalSpan (finger1 finger2 : Nat) : Int :=
  match Nat.min finger1 finger2, Nat.max finger1 finger2 with
  | 1, 2 => 2
  | 2, 3 => 2
  | 3, 4 => 1
  | 4, 5 => 2
  | 1, 3 => 4
  | 2, 4 => 3
  | 3, 5 => 3
  | 1, 4 => 5
  | 2, 5 => 5
  | 1, 5 => 8
  | _, _ => 0

/-- The `transitionWeights` table keyed by the ordered finger pair;
`none` models an absent key (falsy lookup in the source). -/
def transitionWeights : Nat → Nat → Option Nat
  | 1, 2 => some 900
  | 2, 1 => some 936
  | 2, 3 => some 405
  | 3, 2 => some 528
  | 3, 4 => some 420
  | 4, 3 => some 409
  | 4, 5 => some 590
  | 5, 4 => some 561
  | 1, 3 => some 451
  | 3, 1 => some 489
  | 1, 4 => some 301
  | 4, 1 => some 286
  | 1, 5 => some 356
  | 5, 1 => some 286
  | 2, 4 => some 150
  | 4, 2 => some 149
  | 2, 5 => some 334
  | 5, 2 => some 248
  | 3, 5 => some 271
  | 5, 3 => some 448
  | _, _ => none

/-- `isBlackKey`: pitch class in {1,3,6,8,10}; JS `%` is truncated
remainder, i.e. `Int.tmod`. -/
def isBlackKey (pitch : Int) : Bool :=
  let pitchClass := Int.tmod pitch 12
  decide (pitchClass = 1 ∨ pitchClass = 3 ∨ pitchClass = 6 ∨ pitchClass = 8 ∨ pitchClass = 10)

/-- `applyDifficultyAdjustment`: scales a cost by the difficulty
multiplier (1.3 or 1.1 for beginner, 0.9 for advanced, identity
otherwise). -/
def applyDifficultyAdjustment (level : Difficulty) (cost : Rat) (patternContext : PatternType) : Rat :=
  match level with
  | Difficulty.beginner =>
    if patternContext = PatternType.POLYPHONIC ∨ patternContext = PatternType.ORNAMENTED then
      cost * (13 / 10)
    else
      cost * (11 / 10)
  | Difficulty.advanced => cost * (9 / 10)
  | Difficulty.intermediate => cost

/-- The five-finger ladder mapping a pitch offset from the anchor to the
expected finger; this block appears verbatim in both `computeInitialCost`
and `computeTransitionCost` in the source. -/
def expectedFingerFor (hand : Hand) (offset : Int) : Nat :=
  match hand with
  | Hand.RH =>
    if offset ≤ 0 then 1
    else if offset ≤ 2 then 2
    else if offset ≤ 4 then 3
    else if offset ≤ 5 then 4
    else 5
  | Hand.LH =>
    if offset ≥ 0 then 1
    else if offset ≥ -2 then 2
    else if offset ≥ -4 then 3
    else if offset ≥ -5 then 4
    else 5

/-- `computeInitialCost`: cost of assigning `finger` to the first note. -/
def computeInitialCost (finger : Nat) (note : Note) (hand : Hand) (pos : HandPos) : CostResult :=
  let offset := note.pitch - pos.anchorPitch
  let expectedFinger := expectedFingerFor hand offset
  let c1 : Rat × List String :=
    if finger = expectedFinger then
      (0 - 30, ["Matches hand position"])
    else
      let diff := ((finger : Int) - (expectedFinger : Int)).natAbs
      (0 + (diff : Rat) * 15, [toString diff ++ " fingers from expected"])
  let c2 : Rat × List String :=
    if isBlackKey note.pitch then
      if finger = 1 ∨ finger = 5 then
        (c1.1 + 20, c1.2 ++ ["Short finger on black key"])
      else
        (c1.1 - 5, c1.2 ++ ["Long finger on black key"])
    else c1
  { cost := c2.1, reasons := c2.2 }

/-- `computeScaleTransitionCost`: cost function used in scale mode,
built around the canonical scale-fingering templates. -/
def computeScaleTransitionCost (prevFinger currFinger : Nat) (ascending : Bool) (hand : Hand)
    (interval : Int) : CostResult :=
  let rhAscending := hand = Hand.RH ∧ ascending = true
  let rhDescending := hand = Hand.RH ∧ ascending = false
  let lhAscending := hand = Hand.LH ∧ ascending = true
  let lhDescending := hand = Hand.LH ∧ ascending = false
  let goodTransitions : List (Nat × Nat) :=
    (if rhAscending ∨ lhDescending then
      [(1, 2), (2, 3), (3, 1), (3, 4), (4, 5)]
     else []) ++
    (if rhDescending ∨ lhAscending then
      [(5, 4), (4, 3), (3, 2), (2, 1), (1, 3), (1, 2)]
     else [])
  let isGoodTransition := goodTransitions.any (fun p => p.1 = prevFinger ∧ p.2 = currFinger)
  let c1 : Rat × List String :=
    if isGoodTransition then
      (0 - 30, ["Standard scale fingering"])
    else if prevFinger = 3 ∧ currFinger = 1 then
      (0 - 20, ["Thumb under (3->1)"])
    else if prevFinger = 4 ∧ currFinger = 1 then
      (0 - 15, ["Thumb under (4->1)"])
    else if prevFinger = 1 ∧ currFinger = 3 then
      (0 - 20, ["Finger over (1->3)"])
    else if prevFinger = 1 ∧ currFinger = 4 then
      (0 - 10, ["Finger over (1->4)"])
    else
      (0 + 20, ["Non-standard scale transition"])
  let c2 : Rat × List String :=
    if currFinger = prevFinger then
      (c1.1 + 40, c1.2 ++ ["Same finger in scale"])
    else c1
  let naturalSpan := getNaturalSpan prevFinger currFinger
  let c3 : Rat × List String :=
    if interval > naturalSpan + 2 then
      (c2.1 + ((interval - naturalSpan : Int) : Rat) * 10, c2.2 ++ ["Over-stretch in scale"])
    else c2
  { cost := c3.1, reasons := c3.2 }

/-- The accumulation part of `computeTransitionCost` (rules 1-8,
source lines 385-526), before the difficulty adjustment. -/
def transCore (prevNote : Note) (prevFinger : Nat) (currNote : Note) (currFinger : Nat)
    (patternContext : PatternType) (hand : Hand) (pos : HandPos) : CostResult :=
  let interval := currNote.pitch - prevNote.pitch
  let absInterval : Int := |interval|
  let ascending := interval > 0
  let offset := currNote.pitch - pos.anchorPitch
  let expectedFinger := expectedFingerFor hand offset
  -- position-fit reward/penalty
  let c1 : Rat × List String :=
    if pos.inPosition = true ∧ currFinger = expectedFinger then
      (0 - 40, ["Correct finger for position"])
    else if pos.inPosition = true then
      let diff := ((currFinger : Int) - (expectedFinger : Int)).natAbs
      (0 + (diff : Rat) * 20, ["Wrong finger for position"])
    else (0, [])
  -- natural finger progression
  let fingerDiff : Int := (currFinger : Int) - (prevFinger : Int)
  let c2 : Rat × List String :=
    match hand with
    | Hand.RH =>
      if ascending ∧ fingerDiff > 0 then
        (c1.1 - 15, c1.2 ++ ["Natural RH ascending"])
      else if ¬ascending ∧ interval < 0 ∧ fingerDiff < 0 then
        (c1.1 - 15, c1.2 ++ ["Natural RH descending"])
      else if interval ≠ 0 ∧ fingerDiff ≠ 0 then
        if prevFinger ≠ 1 ∧ currFinger ≠ 1 then
          (c1.1 + 50, c1.2 ++ ["Unnatural finger crossing"])
        else c1
      else c1
    | Hand.LH =>
      if ascending ∧ fingerDiff < 0 then
        (c1.1 - 15, c1.2 ++ ["Natural LH ascending"])
      else if ¬ascending ∧ interval < 0 ∧ fingerDiff > 0 then
        (c1.1 - 15, c1.2 ++ ["Natural LH descending"])
      else if interval ≠ 0 ∧ fingerDiff ≠ 0 then
        if prevFinger ≠ 1 ∧ currFinger ≠ 1 then
          (c1.1 + 50, c1.2 ++ ["Unnatural finger crossing"])
        else c1
      else c1
  -- RULE 3: span constraint
  let naturalSpan := getNaturalSpan prevFinger currFinger
  let overStretch : Int := absInterval - naturalSpan
  let c3 : Rat × List String :=
    if overStretch > 4 then
      (c2.1 + (overStretch : Rat) * 12, c2.2 ++ ["Over-stretch"])
    else if overStretch > 2 then
      (c2.1 + (overStretch : Rat) * 6, c2.2)
    else c2
  -- RULE 4: same finger on different pitch
  let c4 : Rat × List String :=
    if currFinger = prevFinger ∧ interval ≠ 0 then
      (c3.1 + (absInterval : Rat) * 8, c3.2 ++ ["Same finger leap"])
    else c3
  -- RULE 5: repeated note
  let c5 : Rat × List String :=
    if interval = 0 ∧ currFinger = prevFinger then
      (c4.1 + 30, c4.2 ++ ["Same finger on repeated note"])
    else if interval = 0 ∧ currFinger ≠ prevFinger then
      (c4.1 - 10, c4.2 ++ ["Good finger change on repeat"])
    else c4
  -- RULE 6: validated transition bonus
  let c6 : Rat × List String :=
    match transitionWeights prevFinger currFinger with
    | some transWeight =>
      if transWeight > 500 then (c5.1 - 10, c5.2)
      else if transWeight > 300 then (c5.1 - 6, c5.2)
      else if transWeight > 100 then (c5.1 - 3, c5.2)
      else c5
    | none => c5
  -- RULE 7: black key preference for long fingers
  let c7 : Rat × List String :=
    if isBlackKey currNote.pitch then
      if currFinger = 1 ∨ currFinger = 5 then
        (c6.1 + 25, c6.2 ++ ["Short finger on black key"])
      else
        (c6.1 - 5, c6.2)
    else c6
  -- RULE 8: thumb crossing for scales
  let c8 : Rat × List String :=
    if patternContext = PatternType.SCALE then
      match hand with
      | Hand.RH =>
        if ascending ∧ prevFinger = 3 ∧ currFinger = 1 then
          (c7.1 - 20, c7.2 ++ ["Good thumb under (3->1)"])
        else if ¬ascending ∧ prevFinger = 1 ∧ currFinger = 3 then
          (c7.1 - 20, c7.2 ++ ["Good finger over (1->3)"])
        else c7
      | Hand.LH =>
        if ¬ascending ∧ prevFinger = 3 ∧ currFinger = 1 then
          (c7.1 - 20, c7.2 ++ ["Good thumb under (3->1)"])
        else if ascending ∧ prevFinger = 1 ∧ currFinger = 3 then
          (c7.1 - 20, c7.2 ++ ["Good finger over (1->3)"])
        else c7
    else c7
  { cost := c8.1, reasons := c8.2 }

/-- `computeTransitionCost`: delegates to the scale cost in scale mode,
otherwise accumulates the generic rules and applies the difficulty
adjustment to the resulting cost. -/
def computeTransitionCost (level : Difficulty) (prevNote : Note) (prevFinger : Nat)
    (currNote : Note) (currFinger : Nat) (patternContext : PatternType) (hand : Hand)
    (pos : HandPos) : CostResult :=
  let interval := currNote.pitch - prevNote.pitch
  let absInterval : Int := |interval|
  let ascending : Bool := decide (interval > 0)
  if pos.isScale = true ∨ patternContext = PatternType.SCALE then
    computeScaleTransitionCost prevFinger currFinger ascending hand absInterval
  else
    let r := transCore prevNote prevFinger currNote currFinger patternContext hand pos
    { cost := applyDifficultyAdjustment level r.cost patternContext, reasons := r.reasons }

/-- The consecutive pitch intervals of a note sequence. -/
def intervalsOf (notes : List Note) : List Int :=
  List.zipWith (fun a b => b.pitch - a.pitch) notes notes.tail

/-- The loop body of `detectScalePattern`: folds the interval list
carrying `(stepwiseCount, sameDirection, lastDirection)`. -/
def scaleScan : List Int → Nat × Nat × Int → Nat × Nat × Int
  | [], acc => acc
  | d :: rest, (stepwiseCount, sameDirection, lastDirection) =>
    let absInterval : Int := |d|
    if absInterval = 1 ∨ absInterval = 2 then
      let direction := d.sign
      let sameDirection' :=
        if direction = lastDirection ∧ direction ≠ 0 then sameDirection + 1 else sameDirection
      scaleScan rest (stepwiseCount + 1, sameDirection', direction)
    else
      scaleScan rest (stepwiseCount, sameDirection, lastDirection)

/-- Maximum of a pitch list, as `Math.max(...pitches)` over a nonempty list. -/
def maxPitch (ps : List Int) : Int := ps.foldl max (ps.headD 0)

/-- Minimum of a pitch list, as `Math.min(...pitches)` over a nonempty list. -/
def minPitch (ps : List Int) : Int := ps.foldl min (ps.headD 0)

/-- `detectScalePattern`: at least 8 notes, stepwise ratio above 0.8,
same-direction ratio above 0.6 (denominator `n - 2`), range above 7. -/
def detectScalePattern (notes : List Note) : Bool :=
  if notes.length < 8 then false
  else
    let scan := scaleScan (intervalsOf notes) (0, 0, 0)
    let stepwiseCount := scan.1
    let sameDirection := scan.2.1
    let stepwiseRatio : Rat := (stepwiseCount : Rat) / ((notes.length : Rat) - 1)
    let directionRatio : Rat :=
      if notes.length > 2 then (sameDirection : Rat) / ((notes.length : Rat) - 2) else 0
    let ps := notes.map (fun n => n.pitch)
    let range := maxPitch ps - minPitch ps
    decide (stepwiseRatio > 8 / 10 ∧ directionRatio > 6 / 10 ∧ range > 7)

/-- The anchor pitch of a closed segment: lowest pitch for RH, highest for LH. -/
def segAnchor (hand : Hand) (minP maxP : Int) : Int :=
  match hand with
  | Hand.RH => minP
  | Hand.LH => maxP

/-- The segment-scanning loop of `analyzeHandPositions` (non-scale branch):
tracks the running min/max pitch window and the length of the open segment,
closing the segment the moment the window would exceed 7 semitones. -/
def segGo (hand : Hand) (minP maxP : Int) (segLen : Nat) : List Note → List HandPos
  | [] =>
    List.replicate segLen { anchorPitch := segAnchor hand minP maxP, inPosition := true, isScale := false }
  | note :: rest =>
    let newMin := min minP note.pitch
    let newMax := max maxP note.pitch
    if newMax - newMin > 7 then
      List.replicate segLen { anchorPitch := segAnchor hand minP maxP, inPosition := true, isScale := false }
        ++ segGo hand note.pitch note.pitch 1 rest
    else
      segGo hand newMin newMax (segLen + 1) rest

/-- `analyzeHandPositions`: one `HandPos` per note; scale sequences get
the uniform scale position anchored at the first pitch, other sequences
are segmented into five-finger positions. -/
def analyzeHandPositions (notes : List Note) (hand : Hand) : List HandPos :=
  match notes with
  | [] => []
  | n0 :: _ =>
    if detectScalePattern notes then
      List.replicate notes.length { anchorPitch := n0.pitch, inPosition := false, isScale := true }
    else
      segGo hand n0.pitch n0.pitch 0 notes

/-- First loop of `getPatternContext`: first segment whose bounds contain
the measure number. -/
def findByMeasure (m : Int) : List PatternSegment → Option PatternType
  | [] => none
  | p :: rest =>
    if p.startIndex ≤ m ∧ m ≤ p.endIndex then some p.patternType else findByMeasure m rest

/-- Second loop of `getPatternContext`: first segment whose bounds contain
the note index. -/
def findByIndex (i : Int) : List PatternSegment → Option PatternType
  | [] => none
  | p :: rest =>
    if p.startIndex ≤ i ∧ i ≤ p.endIndex then some p.patternType else findByIndex i rest

/-- `getPatternContext`: match by measure number first, then by note
index, else UNKNOWN. -/
def getPatternContext (notes : List Note) (index : Nat) (patterns : List PatternSegment) :
    PatternType :=
  match findByMeasure (notes.getD index dNote).measureNumber patterns with
  | some t => t
  | none =>
    match findByIndex (index : Int) patterns with
    | some t => t
    | none => PatternType.UNKNOWN

/-- A DP cell: cumulative cost, parent `(index, finger)` (the source
stores the parent as the string `i-finger`), and reason labels. -/
structure Cell where
  cost : Rat
  parent : Option (Nat × Nat)
  reasons : List String
deriving DecidableEq, Repr

/-- A DP row: the `Map` from finger to cell, as an association list in
insertion order. -/
abbrev Row := List (Nat × Cell)

/-- Lookup in a DP row (`Map.get` keyed by the stringified finger). -/
def rowGet (row : Row) (finger : Nat) : Option Cell :=
  (row.find? (fun e => e.1 = finger)).map (fun e => e.2)

/-- The finger candidates `[1, 2, 3, 4, 5]` iterated by the optimizer. -/
def fingersList : List Nat := [1, 2, 3, 4, 5]

/-- `dp[0]`: one cell per finger from `computeInitialCost`. -/
def initRow (note : Note) (hand : Hand) (pos : HandPos) : Row :=
  fingersList.map (fun finger =>
    let c := computeInitialCost finger note hand pos
    (finger, { cost := c.cost, parent := none, reasons := c.reasons }))

/-- Inner loop of the DP forward pass: scan the five predecessor fingers,
skip absent cells and transitions costing more than 300, and keep the
first-seen minimum cumulative cost with its parent and reasons. -/
def bestFrom (level : Difficulty) (prevRow : Row) (i : Nat) (prevNote currNote : Note)
    (toFinger : Nat) (patternContext : PatternType) (hand : Hand) (pos : HandPos) : Option Cell :=
  fingersList.foldl (fun acc fromFinger =>
    match rowGet prevRow fromFinger with
    | none => acc
    | some prevState =>
      let tc := computeTransitionCost level prevNote fromFinger currNote toFinger
        patternContext hand pos
      if tc.cost > 300 then acc
      else
        let totalCost := prevState.cost + tc.cost
        match acc with
        | none => some { cost := totalCost, parent := some (i - 1, fromFinger), reasons := tc.reasons }
        | some best =>
          if totalCost < best.cost then
            some { cost := totalCost, parent := some (i - 1, fromFinger), reasons := tc.reasons }
          else acc) none

/-- One step of the DP forward pass: build row `i` from row `i - 1`. -/
def stepRow (level : Difficulty) (patterns : List PatternSegment) (hand : Hand)
    (notes : List Note) (positions : List HandPos) (i : Nat) (prevRow : Row) : Row :=
  let prevNote := notes.getD (i - 1) dNote
  let currNote := notes.getD i dNote
  let pos := positions.getD i dPos
  let patternContext := getPatternContext notes i patterns
  fingersList.filterMap (fun toFinger =>
    (bestFrom level prevRow i prevNote currNote toFinger patternContext hand pos).map
      (fun c => (toFinger, c)))

/-- Rows `i, i+1, ...` of the forward pass, driven by a fuel counter
(the source loop runs for `i` in `[1, n)`). -/
def rowsFromAux (level : Difficulty) (patterns : List PatternSegment) (hand : Hand)
    (notes : List Note) (positions : List HandPos) : Nat → Row → Nat → List Row
  | _, _, 0 => []
  | i, prevRow, fuel + 1 =>
    let r := stepRow level patterns hand notes positions i prevRow
    r :: rowsFromAux level patterns hand notes positions (i + 1) r fuel

/-- The whole DP table: row 0 from the initial costs, then `n - 1`
forward-pass rows. -/
def dpTable (level : Difficulty) (notes : List Note) (patterns : List PatternSegment)
    (hand : Hand) : List Row :=
  match notes with
  | [] => []
  | n0 :: _ =>
    let positions := analyzeHandPositions notes hand
    let r0 := initRow n0 hand (positions.getD 0 dPos)
    r0 :: rowsFromAux level patterns hand notes positions 1 r0 (notes.length - 1)

/-- A `path` entry (`FingeringState` in the source). -/
structure FingeringState where
  noteIndex : Nat
  finger : Nat
  hand : Hand
  handPosition : Int
  cost : Rat
  parent : Option (Nat × Nat)
  reasons : List String
deriving DecidableEq, Repr

/-- The planner's result record (`FingeringSolution` in the source). -/
structure FingeringSolution where
  fingering : List Nat
  totalCost : JsNum
  path : List FingeringState
  explanations : List String
deriving DecidableEq, Repr

/-- Final-row selection in `backtrack`: iterate the final row's entries
in insertion order keeping the strictly smaller cost; defaults to
finger 3 at cost `Infinity` when no cell is present. -/
def pickFinal (row : Row) : Nat × JsNum :=
  row.foldl (fun best e =>
    if JsNum.ltb (JsNum.fin e.2.cost) best.2 then (e.1, JsNum.fin e.2.cost) else best)
    (3, JsNum.inf)

/-- The separator used by `reasons.join('; ')` in `backtrack`. -/
def sepSemi : String := "; "

/-- The backtracking walk over `(row, note)` pairs listed from the last
index down to 0; the index of the head pair is the length of the tail.
Produces the fingering, explanations and path, each listed from the
last index down to index 0. -/
def btAux (hand : Hand) : List (Row × Note) → Nat → List Nat × List String × List FingeringState
  | [], _ => ([], [], [])
  | (row, note) :: rest, currentFinger =>
    let i := rest.length
    let st := rowGet row currentFinger
    let expl :=
      match st with
      | some c => String.intercalate sepSemi c.reasons
      | none => ""
    let entry : FingeringState :=
      { noteIndex := i, finger := currentFinger, hand := hand, handPosition := note.pitch,
        cost := ((st.map (fun c => c.cost)).getD 0),
        parent := none,
        reasons := ((st.map (fun c => c.reasons)).getD []) }
    let next :=
      match st with
      | some c =>
        match c.parent with
        | some pp => pp.2
        | none => currentFinger
      | none => currentFinger
    let r := btAux hand rest next
    (currentFinger :: r.1, expl :: r.2.1, entry :: r.2.2)

/-- `backtrack`: pick the best final cell, walk parent links to index 0,
reverse the trails into left-to-right order. -/
def backtrack (dp : List Row) (notes : List Note) (hand : Hand) : FingeringSolution :=
  let n := notes.length
  let best := pickFinal (dp.getD (n - 1) [])
  let r := btAux hand ((dp.zip notes).reverse) best.1
  { fingering := r.1.reverse, totalCost := best.2, path := r.2.2.reverse,
    explanations := r.2.1.reverse }

/-- `dpOptimization`: forward pass then backtracking. -/
def dpOptimization (level : Difficulty) (notes : List Note) (patterns : List PatternSegment)
    (hand : Hand) : FingeringSolution :=
  backtrack (dpTable level notes patterns hand) notes hand

/-- The empty solution returned for an empty input. -/
def emptySolution : FingeringSolution :=
  { fingering := [], totalCost := JsNum.fin 0, path := [], explanations := [] }

/-- The chunk-building loop of `chunkedOptimization`: windows of 32
notes taken at stride 28 (32 minus the 4-note overlap). -/
def buildChunks (notes : List Note) : List (List Note) :=
  if h : notes = [] then []
  else notes.take 32 :: buildChunks (notes.drop 28)
termination_by notes.length
decreasing_by
  simp only [List.length_drop]
  have hp : 0 < notes.length := List.length_pos.mpr h
  omega

/-- The stitching loop of `chunkedOptimization`: keep the first window
whole, later windows minus their 4 overlap entries; sum the window
costs; `path` is returned empty. -/
def stitchChunks (sols : List FingeringSolution) : FingeringSolution :=
  match sols with
  | [] => { fingering := [], totalCost := JsNum.fin 0, path := [], explanations := [] }
  | s0 :: rest =>
    { fingering := s0.fingering ++ rest.flatMap (fun s => s.fingering.drop 4),
      totalCost := (s0 :: rest).foldl (fun a s => JsNum.add a s.totalCost) (JsNum.fin 0),
      path := [],
      explanations := s0.explanations ++ rest.flatMap (fun s => s.explanations.drop 4) }

/-- `chunkedOptimization`: run the DP per window and stitch. -/
def chunkedOptimization (level : Difficulty) (notes : List Note)
    (patterns : List PatternSegment) (hand : Hand) : FingeringSolution :=
  stitchChunks ((buildChunks notes).map (fun c => dpOptimization level c patterns hand))

/-- `planHandFingering`: empty short-circuit, chunked path above 64
notes, plain DP otherwise. -/
def planHandFingering (level : Difficulty) (notes : List Note)
    (patterns : List PatternSegment) (hand : Hand) : FingeringSolution :=
  if notes = [] then emptySolution
  else if notes.length > 64 then chunkedOptimization level notes patterns hand
  else dpOptimization level notes patterns hand

/-- JS `value || 3` on an optional finger slot (0 and a missing slot are
falsy). -/
def jsOrFinger (o : Option Nat) : Nat :=
  match o with
  | some v => if v = 0 then 3 else v
  | none => 3

/-- JS `value || ''` on an optional explanation slot. -/
def jsOrString (o : Option String) : String :=
  match o with
  | some s => s
  | none => ""

/-- The merging loop of `planFingering` for the fingering array:
consume one entry of the matching hand's result per note. -/
def mergeFingering : List Note → List Nat → List Nat → List Nat
  | [], _, _ => []
  | note :: rest, rhF, lhF =>
    match note.hand with
    | Hand.RH => jsOrFinger rhF.head? :: mergeFingering rest rhF.tail lhF
    | Hand.LH => jsOrFinger lhF.head? :: mergeFingering rest rhF lhF.tail

/-- The merging loop of `planFingering` for the explanations array. -/
def mergeExplanations : List Note → List String → List String → List String
  | [], _, _ => []
  | note :: rest, rhE, lhE =>
    match note.hand with
    | Hand.RH => jsOrString rhE.head? :: mergeExplanations rest rhE.tail lhE
    | Hand.LH => jsOrString lhE.head? :: mergeExplanations rest rhE lhE.tail

/-- `planFingering`: split by hand, plan each hand, merge positionally. -/
def planFingering (level : Difficulty) (notes : List Note)
    (patterns : List PatternSegment) : FingeringSolution :=
  if notes = [] then emptySolution
  else
    let rhNotes := notes.filter (fun n => n.hand = Hand.RH)
    let lhNotes := notes.filter (fun n => n.hand = Hand.LH)
    let rhSolution := planHandFingering level rhNotes patterns Hand.RH
    let lhSolution := planHandFingering level lhNotes patterns Hand.LH
    { fingering := mergeFingering notes rhSolution.fingering lhSolution.fingering,
      totalCost := JsNum.add rhSolution.totalCost lhSolution.totalCost,
      path := rhSolution.path ++ lhSolution.path,
      explanations := mergeExplanations notes rhSolution.explanations lhSolution.explanations }

/-! ### Specification-side definitions and concrete inputs used by the claims -/

/-- The difficulty multiplier table of the specification (1.3 for
beginner on POLYPHONIC/ORNAMENTED, else 1.1; 0.9 advanced; 1 otherwise). -/
def difficultyMultiplier (level : Difficulty) (ctx : PatternType) : Rat :=
  match level with
  | Difficulty.beginner =>
    if ctx = PatternType.POLYPHONIC ∨ ctx = PatternType.ORNAMENTED then 13 / 10 else 11 / 10
  | Difficulty.advanced => 9 / 10
  | Difficulty.intermediate => 1

/-- Specification-side pattern-context lookup, written with `List.find?`:
the first segment containing the measure number; failing that, the first
segment containing the note index; otherwise UNKNOWN. -/
def specPatternContext (m : Int) (idx : Nat) (patterns : List PatternSegment) : PatternType :=
  match patterns.find? (fun p => decide (p.startIndex ≤ m ∧ m ≤ p.endIndex)) with
  | some p => p.patternType
  | none =>
    match patterns.find? (fun p => decide (p.startIndex ≤ (idx : Int) ∧ (idx : Int) ≤ p.endIndex)) with
    | some p => p.patternType
    | none => PatternType.UNKNOWN

/-- Number of stepwise intervals (absolute size 1 or 2 semitones). -/
def stepwiseTotal (ds : List Int) : Nat :=
  (ds.filter (fun d => decide (|d| = 1 ∨ |d| = 2))).length

/-- Same-direction count as the source computes it, written in
specification style: a stepwise interval is counted when its sign equals
the sign of the previous stepwise interval; non-stepwise intervals are
neither counted nor remembered. -/
def specSameDirCode : List Int → Int → Nat
  | [], _ => 0
  | d :: rest, last =>
    if |d| = 1 ∨ |d| = 2 then
      (if d.sign = last then 1 else 0) + specSameDirCode rest d.sign
    else
      specSameDirCode rest last

/-- Same-direction count under the claim's plain reading: an interval is
counted when its sign is nonzero and repeats the previous nonzero
interval sign, over all consecutive intervals. -/
def specSameDirClaim : List Int → Int → Nat
  | [], _ => 0
  | d :: rest, last =>
    (if d.sign ≠ 0 ∧ d.sign = last then 1 else 0) +
      specSameDirClaim rest (if d.sign ≠ 0 then d.sign else last)

/-- Total pitch range of a note sequence. -/
def pitchRange (notes : List Note) : Int :=
  maxPitch (notes.map (fun n => n.pitch)) - minPitch (notes.map (fun n => n.pitch))

/-- The scale-classification condition exactly as the claim states it:
at least 8 notes, stepwise ratio above 0.8, the claim's same-direction
ratio (denominator `n - 2`) above 0.6, range above 7. -/
def claimScaleCond (notes : List Note) : Bool :=
  decide (8 ≤ notes.length ∧
    (stepwiseTotal (intervalsOf notes) : Rat) / ((notes.length : Rat) - 1) > 8 / 10 ∧
    (specSameDirClaim (intervalsOf notes) 0 : Rat) / ((notes.length : Rat) - 2) > 6 / 10 ∧
    pitchRange notes > 7)

/-- The cost of one fixed finger assignment for one hand's note
sequence under the planner's cost model (the specification's notion of
a path's total cost: initial cost of the first finger plus the sum of
all transition costs along the assignment). -/
def handAssignmentCost (level : Difficulty) (notes : List Note)
    (patterns : List PatternSegment) (hand : Hand) (fs : List Nat) : Rat :=
  match notes, fs with
  | n0 :: _, f0 :: _ =>
    let positions := analyzeHandPositions notes hand
    (computeInitialCost f0 n0 hand (positions.getD 0 dPos)).cost +
      (List.range' 1 (notes.length - 1)).foldl (fun acc i =>
        acc + (computeTransitionCost level (notes.getD (i - 1) dNote) (fs.getD (i - 1) 3)
          (notes.getD i dNote) (fs.getD i 3) (getPatternContext notes i patterns) hand
          (positions.getD i dPos)).cost) 0
  | _, _ => 0

/-- The fingering/explanation entries of a merged solution at the
positions of one hand's notes, in order. -/
def selHand {α : Type} (hand : Hand) (notes : List Note) (vals : List α) : List α :=
  (notes.zip vals).filterMap (fun p => if p.1.hand = hand then some p.2 else none)

/-- `k` entries consumed from a per-hand fingering result, with the JS
`|| 3` default past the end. -/
def consumeF : Nat → List Nat → List Nat
  | 0, _ => []
  | k + 1, l => jsOrFinger l.head? :: consumeF k l.tail

/-- `k` entries consumed from a per-hand explanations result, with the
JS `|| ''` default past the end. -/
def consumeS : Nat → List String → List String
  | 0, _ => []
  | k + 1, l => jsOrString l.head? :: consumeS k l.tail

/-- C major scale, 10 ascending RH notes (the claim C2 input). -/
def notesScale : List Note :=
  [60, 62, 64, 65, 67, 69, 71, 72, 74, 76].map
    (fun p => { pitch := p, hand := Hand.RH, measureNumber := 0 })

/-- Two same-hand notes 100 semitones apart: every finger-to-finger
transition costs more than the pruning threshold 300. -/
def notesLeap : List Note :=
  [{ pitch := 0, hand := Hand.RH, measureNumber := 0 },
   { pitch := 100, hand := Hand.RH, measureNumber := 0 }]

/-- Eight RH notes whose interval list is `[2, 2, 2, 2, 10, -2, 2]`:
the upward leap repeats the previous nonzero sign but is invisible to
the source's stepwise-only same-direction counter. -/
def notesC4 : List Note :=
  [60, 62, 64, 66, 68, 78, 76, 78].map
    (fun p => { pitch := p, hand := Hand.RH, measureNumber := 0 })

/-- A 64-note hand sequence (boundary input for claim C6). -/
def notes64 : List Note := List.replicate 64 dNote

/-- A 65-note hand sequence (chunking input for claim C6). -/
def notes65 : List Note := List.replicate 65 dNote

/-- Concrete note at pitch 60. -/
def note60 : Note := { pitch := 60, hand := Hand.RH, measureNumber := 0 }

/-- Concrete note at pitch 62. -/
def note62 : Note := { pitch := 62, hand := Hand.RH, measureNumber := 0 }

/-- Concrete note at pitch 64. -/
def note64 : Note := { pitch := 64, hand := Hand.RH, measureNumber := 0 }

/-- Concrete note at pitch 65. -/
def note65 : Note := { pitch := 65, hand := Hand.RH, measureNumber := 0 }

/-- A scale-flagged hand position anchored at 60. -/
def scalePos60 : HandPos := { anchorPitch := 60, inPosition := false, isScale := true }

/-- A non-scale in-position hand position anchored at 60. -/
def inPos60 : HandPos := { anchorPitch := 60, inPosition := true, isScale := false }

/-- Single RH note list (claim C8 witness). -/
def notesRHOnly : List Note := [note60]

/-- The same RH note surrounded by two LH notes (claim C8 witness). -/
def notesRHplusLH : List Note :=
  [{ pitch := 40, hand := Hand.LH, measureNumber := 0 }, note60,
   { pitch := 45, hand := Hand.LH, measureNumber := 0 }]

/-! ### Helper lemmas -/

theorem mergeFingering_length (notes : List Note) :
    ∀ rhF lhF, (mergeFingering notes rhF lhF).length = notes.length := by
  induction notes with
  | nil => intro rhF lhF; rfl
  | cons n rest ih =>
    intro rhF lhF
    cases h : n.hand <;> simp [mergeFingering, h, ih]

theorem mergeExplanations_length (notes : List Note) :
    ∀ rhE lhE, (mergeExplanations notes rhE lhE).length = notes.length := by
  induction notes with
  | nil => intro rhE lhE; rfl
  | cons n rest ih =>
    intro rhE lhE
    cases h : n.hand <;> simp [mergeExplanations, h, ih]

theorem findByMeasure_eq (m : Int) (ps : List PatternSegment) :
    findByMeasure m ps =
      (ps.find? (fun p => decide (p.startIndex ≤ m ∧ m ≤ p.endIndex))).map
        (fun p => p.patternType) := by
  induction ps with
  | nil => rfl
  | cons p rest ih =>
    by_cases h : p.startIndex ≤ m ∧ m ≤ p.endIndex <;>
      simp [findByMeasure, List.find?_cons, h, ih]

theorem findByIndex_eq (i : Int) (ps : List PatternSegment) :
    findByIndex i ps =
      (ps.find? (fun p => decide (p.startIndex ≤ i ∧ i ≤ p.endIndex))).map
        (fun p => p.patternType) := by
  induction ps with
  | nil => rfl
  | cons p rest ih =>
    by_cases h : p.startIndex ≤ i ∧ i ≤ p.endIndex <;>
      simp [findByIndex, List.find?_cons, h, ih]

theorem applyDifficultyAdjustment_eq (level : Difficulty) (cost : Rat) (ctx : PatternType) :
    applyDifficultyAdjustment level cost ctx = difficultyMultiplier level ctx * cost := by
  cases level with
  | beginner =>
    by_cases h : ctx = PatternType.POLYPHONIC ∨ ctx = PatternType.ORNAMENTED <;>
      simp [applyDifficultyAdjustment, difficultyMultiplier, h, mul_comm]
  | intermediate => simp [applyDifficultyAdjustment, difficultyMultiplier]
  | advanced => simp [applyDifficultyAdjustment, difficultyMultiplier, mul_comm]

theorem scaleScan_fst (ds : List Int) :
    ∀ sc sd ld, (scaleScan ds (sc, sd, ld)).1 = sc + stepwiseTotal ds := by
  induction ds with
  | nil => intro sc sd ld; simp [scaleScan, stepwiseTotal]
  | cons d rest ih =>
    intro sc sd ld
    by_cases h : |d| = 1 ∨ |d| = 2 <;>
      simp [scaleScan, stepwiseTotal, h, ih, List.filter_cons] <;> omega

theorem sign_ne_zero_of_stepwise {d : Int} (h : |d| = 1 ∨ |d| = 2) : d.sign ≠ 0 := by
  have hd : d ≠ 0 := by
    intro hz
    subst hz
    simp at h
  simpa [Int.sign_eq_zero_iff_zero] using hd

theorem scaleScan_snd (ds : List Int) :
    ∀ sc sd ld, (scaleScan ds (sc, sd, ld)).2.1 = sd + specSameDirCode ds ld := by
  induction ds with
  | nil => intro sc sd ld; simp [scaleScan, specSameDirCode]
  | cons d rest ih =>
    intro sc sd ld
    by_cases h : |d| = 1 ∨ |d| = 2
    · have hsgn : d.sign ≠ 0 := sign_ne_zero_of_stepwise h
      by_cases hdir : d.sign = ld
      · have hld : ld ≠ 0 := hdir ▸ hsgn
        simp [scaleScan, specSameDirCode, h, hdir, hld, ih]
        omega
      · simp [scaleScan, specSameDirCode, h, hdir, ih]
    · simp [scaleScan, specSameDirCode, h, ih]

/-! ### Claim theorems -/

/-- C1: `planFingering` always returns fingering and explanation arrays
of the same length as the input note sequence, for every input
(covering the chunked path for hands with more than 64 notes, since the
merge writes one entry per input note regardless of the per-hand
results). -/
theorem claim_C1_length_preservation (level : Difficulty) (notes : List Note)
    (patterns : List PatternSegment) :
    (planFingering level notes patterns).fingering.length = notes.length ∧
    (planFingering level notes patterns).explanations.length = notes.length := by
  unfold planFingering
  by_cases h : notes = []
  · subst h; simp [emptySolution]
  · simp [h, mergeFingering_length, mergeExplanations_length]

/-- C7: a note's pattern context is the first segment containing its
measure number; failing that, the first segment containing its index;
otherwise UNKNOWN — first match in supplied order wins. -/
theorem claim_C7_pattern_context (notes : List Note) (idx : Nat)
    (patterns : List PatternSegment) (h : idx < notes.length) :
    getPatternContext notes idx patterns =
      specPatternContext (notes.get ⟨idx, h⟩).measureNumber idx patterns := by
  have hg : notes.getD idx dNote = notes.get ⟨idx, h⟩ := by
    simp [List.getD_eq_getElem?_getD, List.getElem?_eq_getElem h, List.get_eq_getElem]
  unfold getPatternContext specPatternContext
  rw [hg, findByMeasure_eq, findByIndex_eq]
  cases hA : patterns.find?
      (fun p => decide (p.startIndex ≤ (notes.get ⟨idx, h⟩).measureNumber ∧
        (notes.get ⟨idx, h⟩).measureNumber ≤ p.endIndex)) with
  | some p => simp
  | none =>
    cases hB : patterns.find?
        (fun p => decide (p.startIndex ≤ (idx : Int) ∧ (idx : Int) ≤ p.endIndex)) with
    | some p => simp
    | none => simp

/-- Witness for C7 at a concrete in-bounds index. -/
theorem claim_C7_witness :
    0 < notesRHOnly.length ∧
    getPatternContext notesRHOnly 0 [{ startIndex := 0, endIndex := 0, patternType := PatternType.POLYPHONIC }] =
      specPatternContext (notesRHOnly.get ⟨0, by decide⟩).measureNumber 0
        [{ startIndex := 0, endIndex := 0, patternType := PatternType.POLYPHONIC }] :=
  ⟨by decide,
   claim_C7_pattern_context notesRHOnly 0
     [{ startIndex := 0, endIndex := 0, patternType := PatternType.POLYPHONIC }] (by decide)⟩

/-- C10: on two same-hand notes 100 semitones apart, `planFingering`
returns a fully populated fingering array while reporting a total cost
of `Infinity`. -/
theorem claim_C10_infinite_total_cost :
    (planFingering Difficulty.intermediate notesLeap []).fingering = [3, 3] ∧
    (planFingering Difficulty.intermediate notesLeap []).totalCost = JsNum.inf := by
  with_unfolding_all decide

/-- C2 counterexample: on the ascending C major scale input the
returned fingering does not begin `1,2,3,1,2,3,4,5`. -/
theorem claim_C2_counterexample :
    (planFingering Difficulty.intermediate notesScale []).fingering.take 8 ≠
      [1, 2, 3, 1, 2, 3, 4, 5] := by with_unfolding_all decide

/-- C2 amended: the scale is detected (every position flagged isScale),
the returned fingering begins `1,2,3,1,2,3,1,2` (the optimizer keeps
cycling 1-2-3 instead of finishing 4,5), and the reported total cost
(-300) is strictly lower than the cost of assigning the thumb to every
note. -/
theorem claim_C2_amended_scale_run :
    (∀ p ∈ analyzeHandPositions notesScale Hand.RH, p.isScale = true) ∧
    (planFingering Difficulty.intermediate notesScale []).fingering.take 8 =
      [1, 2, 3, 1, 2, 3, 1, 2] ∧
    (planFingering Difficulty.intermediate notesScale []).totalCost = JsNum.fin (-300) ∧
    (-300 : Rat) <
      handAssignmentCost Difficulty.intermediate notesScale [] Hand.RH (List.replicate 10 1) := by
  with_unfolding_all decide

/-- C3 counterexample: a scale-mode transition cost under the advanced
difficulty is returned unscaled — it equals the raw scale transition
cost and differs from that cost scaled by the 0.9 multiplier. -/
theorem claim_C3_counterexample :
    (computeTransitionCost Difficulty.advanced note60 1 note62 2 PatternType.UNKNOWN Hand.RH
        scalePos60).cost = (computeScaleTransitionCost 1 2 true Hand.RH 2).cost ∧
    (computeTransitionCost Difficulty.advanced note60 1 note62 2 PatternType.UNKNOWN Hand.RH
        scalePos60).cost ≠
      difficultyMultiplier Difficulty.advanced PatternType.UNKNOWN *
        (computeScaleTransitionCost 1 2 true Hand.RH 2).cost := by with_unfolding_all decide

/-- C3 amended: the difficulty multiplier is applied exactly once to
non-scale transition costs; scale-mode transitions (isScale position or
SCALE context) are returned unscaled; and the initial-note costs (the
first DP row) never depend on the difficulty level. -/
theorem claim_C3_amended_scaling :
    (∀ (level : Difficulty) (prevNote : Note) (prevFinger : Nat) (currNote : Note)
       (currFinger : Nat) (ctx : PatternType) (hand : Hand) (pos : HandPos),
      (computeTransitionCost level prevNote prevFinger currNote currFinger ctx hand pos).cost =
        if pos.isScale = true ∨ ctx = PatternType.SCALE then
          (computeScaleTransitionCost prevFinger currFinger
            (decide (currNote.pitch - prevNote.pitch > 0)) hand
            |currNote.pitch - prevNote.pitch|).cost
        else
          difficultyMultiplier level ctx *
            (transCore prevNote prevFinger currNote currFinger ctx hand pos).cost) ∧
    (∀ (level1 level2 : Difficulty) (notes : List Note) (patterns : List PatternSegment)
       (hand : Hand),
      (dpTable level1 notes patterns hand).head? = (dpTable level2 notes patterns hand).head?) := by
  constructor
  · intro level prevNote prevFinger currNote currFinger ctx hand pos
    unfold computeTransitionCost
    by_cases hsc : pos.isScale = true ∨ ctx = PatternType.SCALE
    · simp [hsc]
    · simp [hsc, applyDifficultyAdjustment_eq]
  · intro level1 level2 notes patterns hand
    cases notes <;> simp [dpTable]

/-- C9 counterexample: with a non-scale position but SCALE pattern
context, the transition cost is the delegated scale cost (here -30),
not the generic rules a-g plus the -20 crossing reward (here 34). -/
theorem claim_C9_counterexample :
    (computeTransitionCost Difficulty.intermediate note64 3 note65 1 PatternType.SCALE Hand.RH
        inPos60).cost = -30 ∧
    applyDifficultyAdjustment Difficulty.intermediate
        (transCore note64 3 note65 1 PatternType.SCALE Hand.RH inPos60).cost PatternType.SCALE = 34 ∧
    ((-30 : Rat) ≠ 34) := by with_unfolding_all decide

/-- C9 amended: whenever the pattern context is SCALE the transition
cost is delegated entirely to the scale transition cost (regardless of
the position's isScale flag), so the generic -20 thumb-crossing rule is
unreachable for SCALE contexts. -/
theorem claim_C9_amended_delegation (level : Difficulty) (prevNote : Note) (prevFinger : Nat)
    (currNote : Note) (currFinger : Nat) (hand : Hand) (pos : HandPos) :
    computeTransitionCost level prevNote prevFinger currNote currFinger PatternType.SCALE hand
        pos =
      computeScaleTransitionCost prevFinger currFinger
        (decide (currNote.pitch - prevNote.pitch > 0)) hand |currNote.pitch - prevNote.pitch| := by
  unfold computeTransitionCost
  simp

/-- C4 counterexample: an 8-note input satisfying every condition of the
claim (stepwise ratio 6/7, claim-reading same-direction ratio 4/6,
range 18) that the source does not classify as a scale (its counter
sees only 3 same-direction stepwise pairs). -/
theorem claim_C4_counterexample :
    claimScaleCond notesC4 = true ∧ detectScalePattern notesC4 = false := by
  with_unfolding_all decide

/-- C4 amended: the source classifies a sequence as a scale iff it has
at least 8 notes, stepwise ratio above 0.8, range above 7, and a
same-direction ratio above 0.6 in which only stepwise intervals are
counted (each against the sign of the previous stepwise interval);
when classified, every note receives the scale hand position anchored
at the first note's pitch. -/
theorem claim_C4_amended_scale_detection (notes : List Note) (hand : Hand) :
    (detectScalePattern notes = true ↔
      (8 ≤ notes.length ∧
       (stepwiseTotal (intervalsOf notes) : Rat) / ((notes.length : Rat) - 1) > 8 / 10 ∧
       (specSameDirCode (intervalsOf notes) 0 : Rat) / ((notes.length : Rat) - 2) > 6 / 10 ∧
       pitchRange notes > 7)) ∧
    (detectScalePattern notes = true →
      analyzeHandPositions notes hand =
        List.replicate notes.length
          { anchorPitch := (notes.headD dNote).pitch, inPosition := false, isScale := true }) := by
  constructor
  · unfold detectScalePattern
    by_cases h8 : notes.length < 8
    · simp only [h8, if_true, Bool.false_eq_true, false_iff]
      rintro ⟨hlen, -⟩
      omega
    · have hlen : 8 ≤ notes.length := by omega
      have h2 : notes.length > 2 := by omega
      simp only [h8, if_false, h2, if_true, scaleScan_fst, scaleScan_snd, Nat.zero_add,
        decide_eq_true_iff, pitchRange]
      constructor
      · rintro ⟨ha, hb, hc⟩
        exact ⟨hlen, ha, hb, hc⟩
      · rintro ⟨-, ha, hb, hc⟩
        exact ⟨ha, hb, hc⟩
  · intro hdet
    cases notes with
    | nil => simp [detectScalePattern] at hdet
    | cons n0 rest => simp [analyzeHandPositions, hdet]

/-- Witness for C4's amended claim at the C major scale input. -/
theorem claim_C4_witness :
    detectScalePattern notesScale = true ∧
    analyzeHandPositions notesScale Hand.RH =
      List.replicate notesScale.length
        { anchorPitch := (notesScale.headD dNote).pitch, inPosition := false, isScale := true } :=
  ⟨by with_unfolding_all decide,
   (claim_C4_amended_scale_detection notesScale Hand.RH).2 (by with_unfolding_all decide)⟩

theorem selHand_cons {α : Type} (hand : Hand) (n : Note) (rest : List Note) (v : α)
    (vs : List α) :
    selHand hand (n :: rest) (v :: vs) =
      if n.hand = hand then v :: selHand hand rest vs else selHand hand rest vs := by
  by_cases h : n.hand = hand <;> simp [selHand, h]

theorem selHand_mergeF_RH (notes : List Note) :
    ∀ rhF lhF, selHand Hand.RH notes (mergeFingering notes rhF lhF) =
      consumeF ((notes.filter (fun n => n.hand = Hand.RH)).length) rhF := by
  induction notes with
  | nil => intro rhF lhF; rfl
  | cons n rest ih =>
    intro rhF lhF
    cases h : n.hand with
    | RH => simp [mergeFingering, selHand_cons, h, List.filter_cons, consumeF, ih, List.zip_cons_cons]
    | LH => simp [mergeFingering, selHand_cons, h, List.filter_cons, ih, List.zip_cons_cons]

theorem selHand_mergeF_LH (notes : List Note) :
    ∀ rhF lhF, selHand Hand.LH notes (mergeFingering notes rhF lhF) =
      consumeF ((notes.filter (fun n => n.hand = Hand.LH)).length) lhF := by
  induction notes with
  | nil => intro rhF lhF; rfl
  | cons n rest ih =>
    intro rhF lhF
    cases h : n.hand with
    | RH => simp [mergeFingering, selHand_cons, h, List.filter_cons, ih, List.zip_cons_cons]
    | LH => simp [mergeFingering, selHand_cons, h, List.filter_cons, consumeF, ih, List.zip_cons_cons]

theorem selHand_mergeE_RH (notes : List Note) :
    ∀ rhE lhE, selHand Hand.RH notes (mergeExplanations notes rhE lhE) =
      consumeS ((notes.filter (fun n => n.hand = Hand.RH)).length) rhE := by
  induction notes with
  | nil => intro rhE lhE; rfl
  | cons n rest ih =>
    intro rhE lhE
    cases h : n.hand with
    | RH => simp [mergeExplanations, selHand_cons, h, List.filter_cons, consumeS, ih, List.zip_cons_cons]
    | LH => simp [mergeExplanations, selHand_cons, h, List.filter_cons, ih, List.zip_cons_cons]

theorem selHand_mergeE_LH (notes : List Note) :
    ∀ rhE lhE, selHand Hand.LH notes (mergeExplanations notes rhE lhE) =
      consumeS ((notes.filter (fun n => n.hand = Hand.LH)).length) lhE := by
  induction notes with
  | nil => intro rhE lhE; rfl
  | cons n rest ih =>
    intro rhE lhE
    cases h : n.hand with
    | RH => simp [mergeExplanations, selHand_cons, h, List.filter_cons, ih, List.zip_cons_cons]
    | LH => simp [mergeExplanations, selHand_cons, h, List.filter_cons, consumeS, ih, List.zip_cons_cons]

theorem planFingering_selRH (level : Difficulty) (patterns : List PatternSegment)
    (notes : List Note) :
    selHand Hand.RH notes (planFingering level notes patterns).fingering =
      consumeF ((notes.filter (fun n => n.hand = Hand.RH)).length)
        (planHandFingering level (notes.filter (fun n => n.hand = Hand.RH)) patterns
          Hand.RH).fingering ∧
    selHand Hand.RH notes (planFingering level notes patterns).explanations =
      consumeS ((notes.filter (fun n => n.hand = Hand.RH)).length)
        (planHandFingering level (notes.filter (fun n => n.hand = Hand.RH)) patterns
          Hand.RH).explanations := by
  unfold planFingering
  by_cases h : notes = []
  · subst h
    simp [selHand, emptySolution, consumeF, consumeS]
  · simp [h, selHand_mergeF_RH, selHand_mergeE_RH]

theorem planFingering_selLH (level : Difficulty) (patterns : List PatternSegment)
    (notes : List Note) :
    selHand Hand.LH notes (planFingering level notes patterns).fingering =
      consumeF ((notes.filter (fun n => n.hand = Hand.LH)).length)
        (planHandFingering level (notes.filter (fun n => n.hand = Hand.LH)) patterns
          Hand.LH).fingering ∧
    selHand Hand.LH notes (planFingering level notes patterns).explanations =
      consumeS ((notes.filter (fun n => n.hand = Hand.LH)).length)
        (planHandFingering level (notes.filter (fun n => n.hand = Hand.LH)) patterns
          Hand.LH).explanations := by
  unfold planFingering
  by_cases h : notes = []
  · subst h
    simp [selHand, emptySolution, consumeF, consumeS]
  · simp [h, selHand_mergeF_LH, selHand_mergeE_LH]

/-- C8: two inputs agreeing on one hand's note subsequence (and on the
patterns and difficulty) produce identical fingering and explanation
entries at that hand's note positions, whatever the other hand's notes
are. -/
theorem claim_C8_hand_independence (level : Difficulty) (patterns : List PatternSegment)
    (hand : Hand) (notes1 notes2 : List Note)
    (h : notes1.filter (fun n => n.hand = hand) = notes2.filter (fun n => n.hand = hand)) :
    selHand hand notes1 (planFingering level notes1 patterns).fingering =
      selHand hand notes2 (planFingering level notes2 patterns).fingering ∧
    selHand hand notes1 (planFingering level notes1 patterns).explanations =
      selHand hand notes2 (planFingering level notes2 patterns).explanations := by
  cases hand with
  | RH =>
    constructor
    · rw [(planFingering_selRH level patterns notes1).1,
        (planFingering_selRH level patterns notes2).1, h]
    · rw [(planFingering_selRH level patterns notes1).2,
        (planFingering_selRH level patterns notes2).2, h]
  | LH =>
    constructor
    · rw [(planFingering_selLH level patterns notes1).1,
        (planFingering_selLH level patterns notes2).1, h]
    · rw [(planFingering_selLH level patterns notes1).2,
        (planFingering_selLH level patterns notes2).2, h]

/-- Witness for C8: the same single RH note with and without LH
neighbours. -/
theorem claim_C8_witness :
    notesRHOnly.filter (fun n => n.hand = Hand.RH) =
      notesRHplusLH.filter (fun n => n.hand = Hand.RH) ∧
    (selHand Hand.RH notesRHOnly
        (planFingering Difficulty.intermediate notesRHOnly []).fingering =
      selHand Hand.RH notesRHplusLH
        (planFingering Difficulty.intermediate notesRHplusLH []).fingering ∧
     selHand Hand.RH notesRHOnly
        (planFingering Difficulty.intermediate notesRHOnly []).explanations =
      selHand Hand.RH notesRHplusLH
        (planFingering Difficulty.intermediate notesRHplusLH []).explanations) :=
  ⟨by decide,
   claim_C8_hand_independence Difficulty.intermediate [] Hand.RH notesRHOnly notesRHplusLH
     (by decide)⟩

theorem rowsFromAux_length (level : Difficulty) (patterns : List PatternSegment) (hand : Hand)
    (notes : List Note) (positions : List HandPos) :
    ∀ fuel i prevRow,
      (rowsFromAux level patterns hand notes positions i prevRow fuel).length = fuel := by
  intro fuel
  induction fuel with
  | zero => intro i prevRow; rfl
  | succ f ih => intro i prevRow; simp [rowsFromAux, ih]

theorem dpTable_length (level : Difficulty) (notes : List Note)
    (patterns : List PatternSegment) (hand : Hand) :
    (dpTable level notes patterns hand).length = notes.length := by
  cases notes with
  | nil => rfl
  | cons n0 rest => simp [dpTable, rowsFromAux_length]

theorem btAux_length_fst (hand : Hand) :
    ∀ (pairs : List (Row × Note)) (cur : Nat), (btAux hand pairs cur).1.length = pairs.length := by
  intro pairs
  induction pairs with
  | nil => intro cur; rfl
  | cons p rest ih =>
    intro cur
    obtain ⟨row, note⟩ := p
    simp [btAux, ih]

theorem btAux_length_snd (hand : Hand) :
    ∀ (pairs : List (Row × Note)) (cur : Nat),
      (btAux hand pairs cur).2.1.length = pairs.length := by
  intro pairs
  induction pairs with
  | nil => intro cur; rfl
  | cons p rest ih =>
    intro cur
    obtain ⟨row, note⟩ := p
    simp [btAux, ih]

theorem dpOptimization_fingering_length (level : Difficulty) (notes : List Note)
    (patterns : List PatternSegment) (hand : Hand) :
    (dpOptimization level notes patterns hand).fingering.length = notes.length := by
  unfold dpOptimization backtrack
  simp [btAux_length_fst, dpTable_length]

theorem dpOptimization_explanations_length (level : Difficulty) (notes : List Note)
    (patterns : List PatternSegment) (hand : Hand) :
    (dpOptimization level notes patterns hand).explanations.length = notes.length := by
  unfold dpOptimization backtrack
  simp [btAux_length_snd, dpTable_length]

theorem buildChunks_of_length_65 (notes : List Note) (h : notes.length = 65) :
    buildChunks notes = [notes.take 32, (notes.drop 28).take 32, (notes.drop 56).take 32] := by
  have h1 : notes ≠ [] := by
    intro e; rw [e] at h; simp at h
  have h2 : notes.drop 28 ≠ [] := by
    intro e
    have he := congrArg List.length e
    simp [h] at he
  have h3 : (notes.drop 28).drop 28 = notes.drop 56 := by
    simp [List.drop_drop]
  have h4 : notes.drop 56 ≠ [] := by
    intro e
    have he := congrArg List.length e
    simp [h] at he
  have h5 : (notes.drop 56).drop 28 = [] := by
    apply List.drop_eq_nil_of_le
    simp [h]
  rw [buildChunks, dif_neg h1, buildChunks, dif_neg h2, h3, buildChunks, dif_neg h4, h5,
    buildChunks, dif_pos rfl]

/-- C6: a 64-note hand goes through the plain DP optimizer; a 65-note
hand goes through the chunked optimizer, whose output still has 65
entries and starts with the first window's first 4 entries verbatim. -/
theorem claim_C6_chunk_boundary (level : Difficulty) (patterns : List PatternSegment)
    (hand : Hand) (notes : List Note) :
    (notes.length = 64 →
      planHandFingering level notes patterns hand = dpOptimization level notes patterns hand) ∧
    (notes.length = 65 →
      planHandFingering level notes patterns hand = chunkedOptimization level notes patterns hand ∧
      (chunkedOptimization level notes patterns hand).fingering.length = 65 ∧
      (chunkedOptimization level notes patterns hand).fingering.take 4 =
        (dpOptimization level (notes.take 32) patterns hand).fingering.take 4) := by
  constructor
  · intro h64
    have hne : notes ≠ [] := by
      intro e; rw [e] at h64; simp at h64
    unfold planHandFingering
    rw [if_neg hne, if_neg (by omega : ¬notes.length > 64)]
  · intro h65
    have hne : notes ≠ [] := by
      intro e; rw [e] at h65; simp at h65
    have hbc := buildChunks_of_length_65 notes h65
    have hl0 : (dpOptimization level (notes.take 32) patterns hand).fingering.length = 32 := by
      rw [dpOptimization_fingering_length]
      simp [h65]
    have hl1 :
        (dpOptimization level ((notes.drop 28).take 32) patterns hand).fingering.length = 32 := by
      rw [dpOptimization_fingering_length]
      simp [h65]
    have hl2 :
        (dpOptimization level ((notes.drop 56).take 32) patterns hand).fingering.length = 9 := by
      rw [dpOptimization_fingering_length]
      simp [h65]
    refine ⟨?_, ?_, ?_⟩
    · unfold planHandFingering
      rw [if_neg hne, if_pos (by omega : notes.length > 64)]
    · unfold chunkedOptimization
      rw [hbc]
      simp [stitchChunks, hl0, hl1, hl2]
    · unfold chunkedOptimization
      rw [hbc]
      simp only [List.map_cons, List.map_nil, stitchChunks]
      rw [List.take_append_eq_append_take, hl0]
      simp

/-- Witness for C6 at concrete 64- and 65-note inputs. -/
theorem claim_C6_witness :
    (notes64.length = 64 ∧
      planHandFingering Difficulty.intermediate notes64 [] Hand.RH =
        dpOptimization Difficulty.intermediate notes64 [] Hand.RH) ∧
    (notes65.length = 65 ∧
      (planHandFingering Difficulty.intermediate notes65 [] Hand.RH =
        chunkedOptimization Difficulty.intermediate notes65 [] Hand.RH ∧
       (chunkedOptimization Difficulty.intermediate notes65 [] Hand.RH).fingering.length = 65 ∧
       (chunkedOptimization Difficulty.intermediate notes65 [] Hand.RH).fingering.take 4 =
         (dpOptimization Difficulty.intermediate (notes65.take 32) [] Hand.RH).fingering.take 4)) :=
  ⟨⟨by decide,
    (claim_C6_chunk_boundary Difficulty.intermediate [] Hand.RH notes64).1 (by decide)⟩,
   ⟨by decide,
    (claim_C6_chunk_boundary Difficulty.intermediate [] Hand.RH notes65).2 (by decide)⟩⟩

theorem stepRow_nil (level : Difficulty) (patterns : List PatternSegment) (hand : Hand)
    (notes : List Note) (positions : List HandPos) (i : Nat) :
    stepRow level patterns hand notes positions i [] = [] := rfl

theorem rowsFromAux_nil (level : Difficulty) (patterns : List PatternSegment) (hand : Hand)
    (notes : List Note) (positions : List HandPos) :
    ∀ fuel i, rowsFromAux level patterns hand notes positions i [] fuel =
      List.replicate fuel [] := by
  intro fuel
  induction fuel with
  | zero => intro i; rfl
  | succ f ih => intro i; simp [rowsFromAux, stepRow_nil, ih, List.replicate_succ]

theorem rowsFromAux_empty_propagates (level : Difficulty) (patterns : List PatternSegment)
    (hand : Hand) (notes : List Note) (positions : List HandPos) :
    ∀ fuel i prevRow k m, k ≤ m → m < fuel →
      (rowsFromAux level patterns hand notes positions i prevRow fuel)[k]? = some ([] : Row) →
      (rowsFromAux level patterns hand notes positions i prevRow fuel)[m]? = some ([] : Row) := by
  intro fuel
  induction fuel with
  | zero =>
    intro i prevRow k m hkm hm hk
    omega
  | succ f ih =>
    intro i prevRow k m hkm hm hk
    simp only [rowsFromAux] at hk ⊢
    cases k with
    | zero =>
      have hr : stepRow level patterns hand notes positions i prevRow = [] := by
        simpa using hk
      cases m with
      | zero => simpa using hk
      | succ m' =>
        simp only [List.getElem?_cons_succ, hr, rowsFromAux_nil]
        rw [List.getElem?_replicate]
        simp only [if_pos (by omega : m' < f)]
    | succ k' =>
      cases m with
      | zero => omega
      | succ m' =>
        simp only [List.getElem?_cons_succ] at hk ⊢
        exact ih (i + 1) _ k' m' (by omega) (by omega) hk

theorem dpTable_empty_propagates (level : Difficulty) (notes : List Note)
    (patterns : List PatternSegment) (hand : Hand) (i : Nat)
    (h : (dpTable level notes patterns hand)[i]? = some ([] : Row)) :
    ∀ m, i ≤ m → m < notes.length →
      (dpTable level notes patterns hand)[m]? = some ([] : Row) := by
  intro m him hm
  cases hn : notes with
  | nil => simp [hn] at hm
  | cons n0 rest =>
    subst hn
    simp only [dpTable] at h ⊢
    cases i with
    | zero =>
      exfalso
      have : initRow n0 hand ((analyzeHandPositions (n0 :: rest) hand).getD 0 dPos) =
          ([] : Row) := by simpa using h
      simp [initRow, fingersList] at this
    | succ i' =>
      obtain ⟨m', rfl⟩ : ∃ m', m = m' + 1 := ⟨m - 1, by omega⟩
      simp only [List.getElem?_cons_succ] at h ⊢
      refine rowsFromAux_empty_propagates level patterns hand (n0 :: rest) _ _ _ _ i' m'
        (by omega) ?_ h
      simp only [List.length_cons] at hm ⊢
      omega

theorem rowGet_nil (cur : Nat) : rowGet ([] : Row) cur = none := rfl

theorem pickFinal_nil : pickFinal [] = (3, JsNum.inf) := rfl

theorem btAux_empty_rows (hand : Hand) :
    ∀ (e rest : List (Row × Note)) (cur : Nat), (∀ x ∈ e, x.1 = ([] : Row)) →
      (btAux hand (e ++ rest) cur).1 =
        List.replicate e.length cur ++ (btAux hand rest cur).1 ∧
      (btAux hand (e ++ rest) cur).2.1 =
        List.replicate e.length "" ++ (btAux hand rest cur).2.1 := by
  intro e
  induction e with
  | nil => intro rest cur hall; simp
  | cons x e' ih =>
    intro rest cur hall
    obtain ⟨row, note⟩ := x
    have hrow : row = [] := hall (row, note) (List.mem_cons_self _ _)
    subst hrow
    have ih' := ih rest cur (fun y hy => hall y (List.mem_cons_of_mem _ hy))
    simp [btAux, rowGet_nil, ih'.1, ih'.2, List.replicate_succ]

/-- C5: if some DP row is entirely empty (every incoming edge pruned),
planning still returns fully populated arrays of the right length, and
every index from the empty row onward receives the default finger 3
with an empty explanation (the final-row selection defaulting to 3
because no cell is present there). -/
theorem claim_C5_unreachable_rows (level : Difficulty) (patterns : List PatternSegment)
    (hand : Hand) (notes : List Note) (i : Nat)
    (h : (dpTable level notes patterns hand)[i]? = some ([] : Row)) :
    (dpOptimization level notes patterns hand).fingering.length = notes.length ∧
    (dpOptimization level notes patterns hand).explanations.length = notes.length ∧
    ∀ j, i ≤ j → j < notes.length →
      (dpOptimization level notes patterns hand).fingering[j]? = some 3 ∧
      (dpOptimization level notes patterns hand).explanations[j]? = some "" := by
  refine ⟨dpOptimization_fingering_length level notes patterns hand,
    dpOptimization_explanations_length level notes patterns hand, ?_⟩
  intro j hij hjn
  have hlen : (dpTable level notes patterns hand).length = notes.length :=
    dpTable_length level notes patterns hand
  have hi : i < notes.length := by
    by_contra hge
    have hnone : (dpTable level notes patterns hand)[i]? = none :=
      List.getElem?_eq_none (by omega)
    rw [h] at hnone
    exact Option.noConfusion hnone
  have hprop := dpTable_empty_propagates level notes patterns hand i h
  have hfin : (dpTable level notes patterns hand).getD (notes.length - 1) [] = [] := by
    have := hprop (notes.length - 1) (by omega) (by omega)
    simp [List.getD_eq_getElem?_getD, this]
  have hzlen : ((dpTable level notes patterns hand).zip notes).length = notes.length := by
    simp [List.length_zip, hlen]
  have hallB : ∀ x ∈ (((dpTable level notes patterns hand).zip notes).drop i).reverse,
      x.1 = ([] : Row) := by
    intro x hx
    rw [List.mem_reverse] at hx
    obtain ⟨k, hk⟩ := List.mem_iff_getElem?.mp hx
    rw [List.getElem?_drop] at hk
    have hikn : i + k < notes.length := by
      by_contra hge
      have : (((dpTable level notes patterns hand).zip notes))[i + k]? = none :=
        List.getElem?_eq_none (by omega)
      rw [this] at hk
      exact Option.noConfusion hk
    obtain ⟨h1, h2⟩ := List.getElem?_zip_eq_some.mp hk
    have := hprop (i + k) (by omega) hikn
    rw [this] at h1
    have hx1 : x.1 = ([] : Row) := by
      injection h1 with h1
      exact h1.symm
    exact hx1
  have hsplit : ((dpTable level notes patterns hand).zip notes).reverse =
      (((dpTable level notes patterns hand).zip notes).drop i).reverse ++
        (((dpTable level notes patterns hand).zip notes).take i).reverse := by
    rw [← List.reverse_append, List.take_append_drop]
  have hbt := btAux_empty_rows hand
    ((((dpTable level notes patterns hand).zip notes).drop i).reverse)
    ((((dpTable level notes patterns hand).zip notes).take i).reverse) 3 hallB
  have hdropLen : (((dpTable level notes patterns hand).zip notes).drop i).reverse.length =
      notes.length - i := by
    simp [hzlen]
  have htakeLen : (((dpTable level notes patterns hand).zip notes).take i).reverse.length = i := by
    simp [hzlen]
    omega
  constructor
  · show (dpOptimization level notes patterns hand).fingering[j]? = some 3
    simp only [dpOptimization, backtrack, hfin, pickFinal_nil]
    rw [hsplit]
    simp only [hbt.1, hdropLen]
    rw [List.reverse_append, List.reverse_replicate]
    rw [List.getElem?_append_right (by simp [btAux_length_fst, htakeLen]; omega)]
    simp only [List.length_reverse, btAux_length_fst, htakeLen]
    rw [List.getElem?_replicate]
    simp only [if_pos (by omega : j - i < notes.length - i)]
  · show (dpOptimization level notes patterns hand).explanations[j]? = some ""
    simp only [dpOptimization, backtrack, hfin, pickFinal_nil]
    rw [hsplit]
    simp only [hbt.2, hdropLen]
    rw [List.reverse_append, List.reverse_replicate]
    rw [List.getElem?_append_right (by simp [btAux_length_snd, htakeLen]; omega)]
    simp only [List.length_reverse, btAux_length_snd, htakeLen]
    rw [List.getElem?_replicate]
    simp only [if_pos (by omega : j - i < notes.length - i)]

/-- Witness for C5: the 100-semitone leap input, whose second DP row is
entirely pruned. -/
theorem claim_C5_witness :
    (dpTable Difficulty.intermediate notesLeap [] Hand.RH)[1]? = some ([] : Row) ∧
    ((dpOptimization Difficulty.intermediate notesLeap [] Hand.RH).fingering[1]? = some 3 ∧
     (dpOptimization Difficulty.intermediate notesLeap [] Hand.RH).explanations[1]? = some "") :=
  ⟨by with_unfolding_all decide,
   (claim_C5_unreachable_rows Difficulty.intermediate [] Hand.RH notesLeap 1
     (by with_unfolding_all decide)).2.2 1 (by decide) (by decide)⟩
